import Mathlib

/-
Verification development for the streamlit-mistral chat application.

The embedding translates the Python modules
  app/state/session_state.py   (chat store),
  app/components/chat.py       (title deriver and turn controller),
  app/utils/mistral_client.py  (call governor)
into executable Lean definitions.  Python dicts are modelled as
insertion-ordered association lists, Python strings as Lean `String`
(or `List Char` where slicing matters), and the nondeterministic
behaviour of the network and of the wall clock as explicit environment
parameters.
-/

namespace StreamlitMistral

/-! ### Python dict model

Python dicts preserve insertion order: assignment to an existing key
keeps its position, assignment to a fresh key appends, deletion removes
the entry.  We model them as association lists with exactly those
operations. -/

/-- Insertion-ordered mapping from `String` keys to values, as kept by a
Python dict. -/
abbrev Dict (α : Type) := List (String × α)

/-- Lookup `d[k]`, returning `none` when the key is absent. -/
def dictGet {α : Type} (d : Dict α) (k : String) : Option α :=
  match d with
  | [] => none
  | (k', v) :: rest => if k' = k then some v else dictGet rest k

/-- Membership test `k in d`. -/
def dictMem {α : Type} (d : Dict α) (k : String) : Bool :=
  (dictGet d k).isSome

/-- Assignment `d[k] = v`: overwrite in place when present, append when
fresh. -/
def dictSet {α : Type} (d : Dict α) (k : String) (v : α) : Dict α :=
  match d with
  | [] => [(k, v)]
  | (k', v') :: rest => if k' = k then (k', v) :: rest else (k', v') :: dictSet rest k v

/-- Deletion `del d[k]`: removes the entry for `k` (the first matching
entry; reachable dicts have unique keys). -/
def dictDel {α : Type} (d : Dict α) (k : String) : Dict α :=
  match d with
  | [] => []
  | (k', v') :: rest => if k' = k then rest else (k', v') :: dictDel rest k

/-! ### Chat store (`app/state/session_state.py`)

State variables used by the store operations: `chat_sessions`,
`current_chat`, `messages` (the UI mirror of the active chat) and
`chat_titles`. -/

/-- Chat message dict `{"role": ..., "content": ...}` as appended by the
store and the turn controller. -/
structure Msg where
  role : String
  content : String
deriving DecidableEq, Repr

/-- Relevant slice of `st.session_state` for the chat store. -/
structure SessionState where
  chat_sessions : Dict (List Msg)
  current_chat : String
  messages : List Msg
  chat_titles : Dict String
deriving DecidableEq, Repr

/-- State produced by `initialize_session_state` on a fresh session:
one empty conversation named "New Chat", which is current, and an empty
mirror list. -/
def initialState : SessionState :=
  { chat_sessions := [("New Chat", [])]
    current_chat := "New Chat"
    messages := []
    chat_titles := [] }

/-- Translation of `create_new_chat`: the name is "Chat " plus the
current clock reading `time.strftime("%H:%M")`, passed in as `now`. -/
def create_new_chat (now : String) (s : SessionState) : String × SessionState :=
  let new_chat_name := "Chat " ++ now
  (new_chat_name,
    { s with
      chat_sessions := dictSet s.chat_sessions new_chat_name []
      current_chat := new_chat_name
      messages := [] })

/-- Translation of `switch_to_chat`: no-op on an unknown name, otherwise
makes the chat current and points the mirror at its history. -/
def switch_to_chat (chat_name : String) (s : SessionState) : SessionState :=
  match dictGet s.chat_sessions chat_name with
  | none => s
  | some msgs => { s with current_chat := chat_name, messages := msgs }

/-- Translation of `delete_chat`: rejects unknown names and the last
remaining chat (returning `none`), otherwise deletes and, when the
current chat was deleted, switches to the first remaining chat in
insertion order (`list(chat_sessions.keys())[0]`). -/
def delete_chat (chat_name : String) (s : SessionState) : Option String × SessionState :=
  if !(dictMem s.chat_sessions chat_name) then (none, s)
  else if s.chat_sessions.length ≤ 1 then (none, s)
  else
    let s' : SessionState := { s with chat_sessions := dictDel s.chat_sessions chat_name }
    if chat_name = s'.current_chat then
      match s'.chat_sessions with
      | [] => (none, s')  -- unreachable: at least two entries existed before the delete
      | (k, _) :: _ => (some k, switch_to_chat k s')
    else (some s'.current_chat, s')

/-- Test of the source's guard `not new_name.strip()`: stripping
whitespace from both ends leaves the empty string exactly when every
character is whitespace. -/
def isBlank (s : String) : Bool :=
  s.data.all (fun c => c = ' ' || c = '\t' || c = '\n' || c = '\r' || c = '\x0b' || c = '\x0c')

/-- Translation of `rename_chat`: rejects blank new names and unknown
old names (returning `false`); otherwise deletes the old key, stores the
history under the new key, updates `current_chat`/`messages` when the
current chat was renamed, and carries the cached title over (setting the
new title entry before deleting the old one, as the source does). -/
def rename_chat (chat_name new_name : String) (s : SessionState) : Bool × SessionState :=
  if isBlank new_name then (false, s)
  else
    match dictGet s.chat_sessions chat_name with
    | none => (false, s)
    | some msgs =>
      let s1 : SessionState :=
        { s with chat_sessions := dictSet (dictDel s.chat_sessions chat_name) new_name msgs }
      let s2 : SessionState :=
        if chat_name = s1.current_chat then
          { s1 with current_chat := new_name, messages := msgs }
        else s1
      let s3 : SessionState :=
        match dictGet s2.chat_titles chat_name with
        | some t => { s2 with chat_titles := dictDel (dictSet s2.chat_titles new_name t) chat_name }
        | none => { s2 with chat_titles := dictSet s2.chat_titles new_name new_name }
      (true, s3)

/-- Translation of `add_message`: appends to the mirror list and writes
the mirror back into the store under the current chat's key. -/
def add_message (role content : String) (s : SessionState) : SessionState :=
  let msgs := s.messages ++ [⟨role, content⟩]
  { s with
    messages := msgs
    chat_sessions := dictSet s.chat_sessions s.current_chat msgs }

/-- Store operations, for stating invariants over arbitrary operation
sequences. -/
inductive StoreOp where
  | create (now : String)
  | switch (name : String)
  | delete (name : String)
  | rename (oldName newName : String)
  | addMsg (role content : String)

/-- Effect of one store operation on the session state (return values
discarded). -/
def applyOp (s : SessionState) (op : StoreOp) : SessionState :=
  match op with
  | .create now => (create_new_chat now s).2
  | .switch n => switch_to_chat n s
  | .delete n => (delete_chat n s).2
  | .rename a b => (rename_chat a b s).2
  | .addMsg r c => add_message r c s

/-- Invariant: the active conversation name keys an existing entry of
the store. -/
abbrev currentKeyed (s : SessionState) : Prop :=
  dictMem s.chat_sessions s.current_chat = true

/-- Invariant: the UI mirror `messages` equals the history stored for
the active conversation. -/
abbrev mirrored (s : SessionState) : Prop :=
  dictGet s.chat_sessions s.current_chat = some s.messages

/-- Side condition under which `rename_chat` cannot clobber the entry
the mirror points at: the new name may equal the active conversation's
name only when the active conversation itself is being renamed. -/
abbrev renameSafe (s : SessionState) (op : StoreOp) : Prop :=
  match op with
  | .rename a b => b = s.current_chat → a = s.current_chat
  | _ => True

/-! ### Title deriver (`ChatInterface._derive_title_from_message`)

Python strings are modelled as `List Char`; `text[:n]` is `List.take n`
and `len` is `List.length`.  The regex split
`re.split(r'(?<=[.!?])\s+', text)` cuts the string at every maximal
whitespace run that is immediately preceded by `.`, `!` or `?`. -/

/-- Whitespace test matching the regex class `\s` (we model the ASCII
whitespace characters; the regex additionally matches other Unicode
whitespace, which none of the proved properties depend on). -/
def isPySpace (c : Char) : Bool :=
  c = ' ' || c = '\t' || c = '\n' || c = '\r' || c = '\x0b' || c = '\x0c'

/-- Sentence-ending punctuation of the lookbehind class `[.!?]`. -/
def isSentencePunct (c : Char) : Bool :=
  c = '.' || c = '!' || c = '?'

/-- Lookbehind test on the previous character (`none` at the start of
the string, where the lookbehind cannot match). -/
def isPunctOpt : Option Char → Bool
  | none => false
  | some c => isSentencePunct c

/-- Worker for the regex split.  `inDelim` records whether we are inside
a matched `\s+` run, `prev` is the previously scanned character, and
`segRev` accumulates the current segment in reverse. -/
def pySplitGo (inDelim : Bool) (prev : Option Char) (segRev : List Char) :
    List Char → List (List Char)
  | [] => [segRev.reverse]
  | c :: rest =>
    if inDelim then
      if isPySpace c then pySplitGo true (some c) segRev rest
      else pySplitGo false (some c) [c] rest
    else
      if isPySpace c && isPunctOpt prev then
        segRev.reverse :: pySplitGo true (some c) [] rest
      else pySplitGo false (some c) (c :: segRev) rest

/-- Translation of `re.split(r'(?<=[.!?])\s+', s)`. -/
def pySplitSentences (s : List Char) : List (List Char) :=
  pySplitGo false none [] s

/-- First segment of the split, computed directly: the prefix of the
string up to (excluding) the first whitespace character that is preceded
by sentence-ending punctuation. -/
def firstSegGo (prev : Option Char) : List Char → List Char
  | [] => []
  | c :: rest =>
    if isPySpace c && isPunctOpt prev then []
    else c :: firstSegGo (some c) rest

/-- Character scanned last before handing the rest of the string to a
continuation: the last character of `a`, or `prev` when `a` is empty. -/
def prevAfter (prev : Option Char) : List Char → Option Char
  | [] => prev
  | c :: rest => prevAfter (some c) rest

/-- Translation of `ChatInterface._derive_title_from_message`
(`app/components/chat.py`): `max_length = 40`; short messages are
returned unchanged; otherwise the first sentence of `message[:60]` is
returned when it has at most 50 characters, else `message[:40] + "..."`.
The `[] => ...` branch mirrors the source's `if sentences:` guard
falling through to the ellipsis fallback. -/
def deriveTitle (message : List Char) : List Char :=
  let max_length := 40
  if message.length ≤ max_length then message
  else
    match pySplitSentences (message.take (max_length + 20)) with
    | first_sentence :: _ =>
      if first_sentence.length ≤ max_length + 10 then first_sentence
      else message.take max_length ++ ['.', '.', '.']
    | [] => message.take max_length ++ ['.', '.', '.']

/-- Restatement of the spec's three numbered steps for the title
deriver, written from the spec's words for the refinement claim C3:
(1) texts of length ≤ 40 are returned unchanged; (2) otherwise
`text[:60]` is split on sentence-ending punctuation followed by
whitespace and the first segment is returned when its length is ≤ 50;
(3) otherwise `text[:40] + "..."` is returned. -/
def deriveTitleSpec (text : List Char) : List Char :=
  if text.length ≤ 40 then text
  else
    let seg := (pySplitSentences (text.take 60)).headD []
    if seg.length ≤ 50 then seg
    else text.take 40 ++ ['.', '.', '.']

/-! ### Call governor (`chat_with_mistral`, `app/utils/mistral_client.py`)

The function loops `while retries <= max_retries` around the outbound
call.  Each iteration performs, inside a `try`: the rate-limiter wait,
the image merge (whose encoding may raise), the wall-clock timeout
check, and the API call (which may return, or raise `ConnectionError`,
`TimeoutError`, or any other exception).  We model the environment as a
function from the iteration's `retries` counter to the single outcome
that iteration observes. -/

/-- Outcome one loop iteration of `chat_with_mistral` observes. -/
inductive ChatAttempt where
  /-- wall-clock check `time.time() - start_time > timeout` fires before
  the call is dispatched -/
  | clockTimeout
  /-- upstream call returns; `s` is the first choice's message content -/
  | ok (s : String)
  /-- upstream call raises `ConnectionError` with text `m` -/
  | connError (m : String)
  /-- upstream call raises `TimeoutError` with text `m` -/
  | timeoutError (m : String)
  /-- any other exception (from image encoding or the upstream call)
  with text `m` -/
  | otherError (m : String)
deriving DecidableEq, Repr

/-- Observable trace of one `chat_with_mistral` call: the returned
string, the number of loop iterations performed, and the backoff sleep
durations (seconds) in order. -/
structure ChatTrace where
  result : String
  iterations : Nat
  sleeps : List Nat
deriving DecidableEq, Repr

/-- Error string of the `except ConnectionError` handler on retry
exhaustion. -/
def connErrMsg (m : String) : String :=
  "Connection error: " ++ m ++ ". Please check your internet connection and try again."

/-- Error string of the `except TimeoutError` handler on retry
exhaustion. -/
def timeoutErrMsg : String :=
  "Operation timed out. The server might be experiencing high load. Please try again later."

/-- Error string returned when the wall-clock timeout check fires. -/
def clockTimeoutMsg (timeout : Nat) : String :=
  "Error: Request timed out after " ++ toString timeout ++ " seconds. Please try again."

/-- String of the `return` after the `while` loop.  In the source this
line is dead code (every handler returns before the loop guard can
fail); correspondingly it is produced only at fuel 0, which the top
entry never reaches. -/
def exhaustedMsg : String :=
  "Error: Could not get a response after multiple attempts. Please try again later."

/-- Loop body of `chat_with_mistral`.  `retries` is the source's counter
and `fuel` is `max_retries + 1 - retries`, so fuel 0 corresponds to the
`while` guard failing.  On `ConnectionError`/`TimeoutError` the counter
is incremented and, when `retries <= max_retries` still holds, the loop
sleeps `2 ** retries` seconds and goes round again; otherwise the
handler returns its error string.  Every other outcome returns at
once. -/
def chatLoop (env : Nat → ChatAttempt) (max_retries timeout : Nat) :
    Nat → Nat → ChatTrace
  | _, 0 => ⟨exhaustedMsg, 0, []⟩
  | retries, fuel + 1 =>
    match env retries with
    | .clockTimeout => ⟨clockTimeoutMsg timeout, 1, []⟩
    | .ok s => ⟨s, 1, []⟩
    | .connError m =>
      if retries + 1 ≤ max_retries then
        let t := chatLoop env max_retries timeout (retries + 1) fuel
        ⟨t.result, t.iterations + 1, 2 ^ (retries + 1) :: t.sleeps⟩
      else ⟨connErrMsg m, 1, []⟩
    | .timeoutError _ =>
      if retries + 1 ≤ max_retries then
        let t := chatLoop env max_retries timeout (retries + 1) fuel
        ⟨t.result, t.iterations + 1, 2 ^ (retries + 1) :: t.sleeps⟩
      else ⟨timeoutErrMsg, 1, []⟩
    | .otherError m => ⟨"Error: " ++ m, 1, []⟩

/-- Translation of `chat_with_mistral`: run the retry loop from
`retries = 0`. -/
def chat_with_mistral (env : Nat → ChatAttempt) (max_retries timeout : Nat) : ChatTrace :=
  chatLoop env max_retries timeout 0 (max_retries + 1)

/-! ### Image merge aliasing (`chat_with_mistral`, lines 197-211)

The source does `processed_messages = messages.copy()` — a shallow copy:
the new list holds the same message dicts — and then mutates the shared
last dict with `processed_messages[-1]["content"] = content`.  To make
the sharing observable we model message dicts as heap cells: the heap is
a list of records indexed by address, and the caller's transcript is a
list of addresses into it. -/

/-- Content field of a message dict: a plain string, or the multi-part
list `[{"type": "text", ...}, {"type": "image_url", ...}]` that the
image merge installs. -/
inductive PyContent where
  | text (s : String)
  | multipart (textPart : String) (imageUrl : String)
deriving DecidableEq, Repr

/-- Message dict as a heap cell. -/
structure PyMsg where
  role : String
  content : PyContent
deriving DecidableEq, Repr

/-- Text extracted by `last_msg["content"]` for the `"text"` part. -/
def contentText : PyContent → String
  | .text s => s
  | .multipart t _ => t

/-- Translation of the image-merge block: `processed_messages` is
`messages.copy()` — the same addresses — and the assignment to
`processed_messages[-1]["content"]` updates the heap cell both lists
point at.  Returns the heap after the block together with the caller's
(unchanged) address list. -/
def mergeImage (heap : List PyMsg) (messages : List Nat) (base64Image : String) :
    List PyMsg × List Nat :=
  let processed := messages
  match processed.getLast? with
  | none => (heap, processed)
  | some addr =>
    match heap.get? addr with
    | none => (heap, processed)
    | some msg =>
      let newContent :=
        PyContent.multipart (contentText msg.content)
          ("data:image/png;base64," ++ base64Image)
      (heap.set addr { msg with content := newContent }, processed)

/-! ### Turn controller (`ChatInterface._process_pending_message`,
`app/components/chat.py`)

The method runs under `try/except Exception/finally`.  The governor call
is the fault point the claim ranges over; we model its behaviour as a
function from the model name, token limit and transcript sent to the API
to either a returned string or a raised exception. -/

/-- Behaviour of one `chat_with_mistral` call as seen by the turn
controller. -/
inductive GovResult where
  /-- the call returned the string `s` (success text or the governor's
  own error text) -/
  | returns (s : String)
  /-- the call raised an exception with text `e` (caught by the
  controller's `except Exception` handler) -/
  | raises (e : String)

/-- Relevant slice of `st.session_state` for the turn controller. -/
structure ChatState where
  messages : List Msg
  chat_sessions : Dict (List Msg)
  current_chat : String
  thinking : Bool
  needs_response : Bool
  last_user_input : Option String
  selected_model : Option String
  max_tokens : Option Nat
  uploaded_images : Option (List String)
  image_previews : Option (List String)
deriving Repr

/-- Transcript preparation: the source copies every message except
assistant messages whose content is exactly "Thinking...". -/
def excludeThinking (ms : List Msg) : List Msg :=
  ms.filter (fun m => !(m.role = "assistant" && m.content = "Thinking..."))

/-- Effect of the `finally` block: clear `thinking` and
`needs_response`, and delete `last_user_input`, `uploaded_images` and
`image_previews`. -/
def finallyCleanup (s : ChatState) : ChatState :=
  { s with
    thinking := false
    needs_response := false
    last_user_input := none
    uploaded_images := none
    image_previews := none }

/-- Reply text appended to the transcript: the governor's returned
string, or the `except` handler's `f"Error: {str(e)}"`. -/
def govReply : GovResult → String
  | .returns r => r
  | .raises e => "Error: " ++ e

/-- Translation of `_process_pending_message`.  Without a pending flag
it returns untouched; with the flag but no stored input it clears the
flags and returns early (the `finally` block still runs on that path);
otherwise it calls the governor on the filtered transcript, appends
exactly one assistant message — the reply or the handler's error text —
writes the mirror back into the store, and runs the `finally` block. -/
def process_pending_message (defaultModel : String)
    (gov : String → Nat → List Msg → GovResult) (s : ChatState) : ChatState :=
  if !s.needs_response then s
  else
    match s.last_user_input with
    | none => finallyCleanup { s with thinking := false, needs_response := false }
    | some _ =>
      let selectedModel := s.selected_model.getD defaultModel
      let maxTokens := s.max_tokens.getD 500
      let apiMessages := excludeThinking s.messages
      let response := govReply (gov selectedModel maxTokens apiMessages)
      let msgs := s.messages ++ [⟨"assistant", response⟩]
      finallyCleanup
        { s with
          messages := msgs
          chat_sessions := dictSet s.chat_sessions s.current_chat msgs }

/-! ### Dict lemmas -/

theorem dictGet_set_self {α : Type} (d : Dict α) (k : String) (v : α) :
    dictGet (dictSet d k v) k = some v := by
  induction d with
  | nil => simp [dictSet, dictGet]
  | cons kv rest ih =>
    obtain ⟨k', v'⟩ := kv
    by_cases h : k' = k <;> simp [dictSet, dictGet, h, ih]

theorem dictGet_set_ne {α : Type} (d : Dict α) (k k' : String) (v : α) (h : k' ≠ k) :
    dictGet (dictSet d k v) k' = dictGet d k' := by
  have h' : k ≠ k' := Ne.symm h
  induction d with
  | nil => simp [dictSet, dictGet, h']
  | cons kv rest ih =>
    obtain ⟨k₀, v₀⟩ := kv
    by_cases h0 : k₀ = k <;> by_cases h1 : k₀ = k' <;>
      simp_all [dictSet, dictGet]

theorem dictGet_del_ne {α : Type} (d : Dict α) (k k' : String) (h : k' ≠ k) :
    dictGet (dictDel d k) k' = dictGet d k' := by
  induction d with
  | nil => simp [dictDel]
  | cons kv rest ih =>
    obtain ⟨k₀, v₀⟩ := kv
    by_cases h0 : k₀ = k <;> by_cases h1 : k₀ = k' <;>
      simp_all [dictDel, dictGet]

theorem dictDel_length_ge {α : Type} (d : Dict α) (k : String) :
    d.length ≤ (dictDel d k).length + 1 := by
  induction d with
  | nil => simp [dictDel]
  | cons kv rest ih =>
    obtain ⟨k₀, v₀⟩ := kv
    by_cases h0 : k₀ = k <;> simp [dictDel, h0] <;> omega

theorem dictSet_ne_nil {α : Type} (d : Dict α) (k : String) (v : α) :
    dictSet d k v ≠ [] := by
  cases d with
  | nil => simp [dictSet]
  | cons kv rest =>
    obtain ⟨k₀, v₀⟩ := kv
    by_cases h0 : k₀ = k <;> simp [dictSet, h0]

theorem dictSet_of_not_mem {α : Type} (d : Dict α) (k : String) (v : α)
    (h : dictMem d k = false) : dictSet d k v = d ++ [(k, v)] := by
  induction d with
  | nil => simp [dictSet]
  | cons kv rest ih =>
    obtain ⟨k₀, v₀⟩ := kv
    by_cases h0 : k₀ = k
    · simp [dictMem, dictGet, h0] at h
    · simp [dictMem, dictGet, h0] at h
      simp [dictSet, h0, ih (by simp [dictMem, h])]

/-! ### Chat store theorems -/

theorem switch_sessions (n : String) (s : SessionState) :
    (switch_to_chat n s).chat_sessions = s.chat_sessions := by
  unfold switch_to_chat
  cases dictGet s.chat_sessions n <;> rfl

theorem switch_to_chat_absent (n : String) (s : SessionState)
    (hg : dictGet s.chat_sessions n = none) : switch_to_chat n s = s := by
  simp [switch_to_chat, hg]

theorem switch_to_chat_present (n : String) (s : SessionState) (msgs : List Msg)
    (hg : dictGet s.chat_sessions n = some msgs) :
    switch_to_chat n s = { s with current_chat := n, messages := msgs } := by
  simp [switch_to_chat, hg]

theorem delete_chat_absent (n : String) (s : SessionState)
    (hm : dictMem s.chat_sessions n = false) : delete_chat n s = (none, s) := by
  simp [delete_chat, hm]

theorem delete_chat_last (n : String) (s : SessionState)
    (hm : dictMem s.chat_sessions n = true) (hl : s.chat_sessions.length ≤ 1) :
    delete_chat n s = (none, s) := by
  simp [delete_chat, hm, hl]

theorem delete_chat_active (s : SessionState) (k : String) (ms : List Msg)
    (rest : Dict (List Msg))
    (hm : dictMem s.chat_sessions s.current_chat = true)
    (hl : ¬ s.chat_sessions.length ≤ 1)
    (hd : dictDel s.chat_sessions s.current_chat = (k, ms) :: rest) :
    delete_chat s.current_chat s =
      (some k, { s with chat_sessions := (k, ms) :: rest, current_chat := k, messages := ms }) := by
  simp only [delete_chat, hm, Bool.not_true, Bool.false_eq_true, if_false, if_neg hl, hd]
  simp only [if_true]
  rw [switch_to_chat_present k _ ms (by simp [dictGet])]

theorem delete_chat_inactive (n : String) (s : SessionState)
    (hm : dictMem s.chat_sessions n = true)
    (hl : ¬ s.chat_sessions.length ≤ 1)
    (hc : n ≠ s.current_chat) :
    delete_chat n s =
      (some s.current_chat, { s with chat_sessions := dictDel s.chat_sessions n }) := by
  simp only [delete_chat, hm, Bool.not_true, Bool.false_eq_true, if_false, if_neg hl,
    if_neg hc]

theorem rename_chat_blank (a b : String) (s : SessionState)
    (ht : isBlank b = true) : rename_chat a b s = (false, s) := by
  simp [rename_chat, ht]

theorem rename_chat_absent (a b : String) (s : SessionState)
    (ht : isBlank b = false) (hg : dictGet s.chat_sessions a = none) :
    rename_chat a b s = (false, s) := by
  simp [rename_chat, ht, hg]

/-- Effect of a successful `rename_chat` on the store, the active name
and the mirror (the cached-title bookkeeping is characterized
separately by the definition itself). -/
theorem rename_chat_core (a b : String) (s : SessionState) (msgs : List Msg)
    (ht : isBlank b = false) (hg : dictGet s.chat_sessions a = some msgs) :
    (rename_chat a b s).1 = true ∧
    (rename_chat a b s).2.chat_sessions = dictSet (dictDel s.chat_sessions a) b msgs ∧
    (rename_chat a b s).2.current_chat = (if a = s.current_chat then b else s.current_chat) ∧
    (rename_chat a b s).2.messages = (if a = s.current_chat then msgs else s.messages) := by
  unfold rename_chat
  by_cases hc : a = s.current_chat
  · subst hc
    cases hgt : dictGet s.chat_titles s.current_chat <;> simp [ht, hg, hgt]
  · cases hgt : dictGet s.chat_titles a <;> simp [ht, hg, hgt, hc]

theorem delete_chat_sessions (n : String) (s : SessionState) :
    (delete_chat n s).2.chat_sessions = s.chat_sessions ∨
    (¬ s.chat_sessions.length ≤ 1 ∧
      (delete_chat n s).2.chat_sessions = dictDel s.chat_sessions n) := by
  unfold delete_chat
  by_cases hm : dictMem s.chat_sessions n
  · by_cases hl : s.chat_sessions.length ≤ 1
    · left; simp [hm, hl]
    · right
      refine ⟨hl, ?_⟩
      by_cases hc : n = s.current_chat
      · subst hc
        cases hd : dictDel s.chat_sessions s.current_chat with
        | nil => simp [hm, hl, hd]
        | cons p rest =>
          obtain ⟨k, ms⟩ := p
          simp [hm, hl, hd, switch_sessions]
      · simp [hm, hl, hc]
  · left; simp [hm]

theorem rename_chat_sessions (a b : String) (s : SessionState) :
    (rename_chat a b s).2.chat_sessions = s.chat_sessions ∨
    ∃ msgs, dictGet s.chat_sessions a = some msgs ∧
      (rename_chat a b s).2.chat_sessions = dictSet (dictDel s.chat_sessions a) b msgs := by
  unfold rename_chat
  by_cases ht : isBlank b = true
  · left; simp [ht]
  · cases hg : dictGet s.chat_sessions a with
    | none => left; simp [ht, hg]
    | some msgs =>
      right
      refine ⟨msgs, rfl, ?_⟩
      by_cases hc : a = s.current_chat
      · subst hc
        cases hgt : dictGet s.chat_titles s.current_chat <;> simp [ht, hgt]
      · cases hgt : dictGet s.chat_titles a <;> simp [ht, hc, hgt]

/-- Per-operation preservation of non-emptiness of the store. -/
theorem applyOp_sessions_ne_nil (s : SessionState) (op : StoreOp)
    (h : s.chat_sessions ≠ []) : (applyOp s op).chat_sessions ≠ [] := by
  cases op with
  | create now => exact dictSet_ne_nil _ _ _
  | switch n => rw [show applyOp s (.switch n) = switch_to_chat n s from rfl, switch_sessions]; exact h
  | delete n =>
    show (delete_chat n s).2.chat_sessions ≠ []
    rcases delete_chat_sessions n s with hcase | ⟨hl, hcase⟩
    · rw [hcase]; exact h
    · rw [hcase]
      have hlen := dictDel_length_ge s.chat_sessions n
      exact List.length_pos.mp (by omega)
  | rename a b =>
    show (rename_chat a b s).2.chat_sessions ≠ []
    rcases rename_chat_sessions a b s with hcase | ⟨msgs, _, hcase⟩
    · rw [hcase]; exact h
    · rw [hcase]; exact dictSet_ne_nil _ _ _
  | addMsg r c => exact dictSet_ne_nil _ _ _

/-- C4: deleting the only conversation is rejected (`delete_chat`
returns `None`, the spec's `LastConversationError` outcome) with the
state — in particular the single stored conversation — unchanged; and
the conversations mapping is non-empty after every sequence of store
operations applied to a non-empty store. -/
theorem C4_last_conversation_protected :
    (∀ (s : SessionState) (name : String), s.chat_sessions.length = 1 →
      delete_chat name s = (none, s)) ∧
    (∀ (s : SessionState) (ops : List StoreOp), s.chat_sessions ≠ [] →
      (ops.foldl applyOp s).chat_sessions ≠ []) := by
  constructor
  · intro s name h
    by_cases hm : dictMem s.chat_sessions name
    · simp [delete_chat, hm, h]
    · simp [delete_chat, hm]
  · intro s ops
    induction ops generalizing s with
    | nil => exact id
    | cons op rest ih =>
      intro h
      exact ih _ (applyOp_sessions_ne_nil s op h)

/-- Witness for C4 at the initial store: deleting "New Chat" when it is
the only conversation fails and changes nothing, and one concrete
operation sequence keeps the store non-empty. -/
theorem C4_last_conversation_protected_witness :
    delete_chat "New Chat" initialState = (none, initialState) ∧
    ([StoreOp.create "11:11"].foldl applyOp initialState).chat_sessions ≠ [] :=
  ⟨C4_last_conversation_protected.1 initialState "New Chat" (by decide),
   C4_last_conversation_protected.2 initialState [StoreOp.create "11:11"] (by decide)⟩

/-- C5: every store operation applied to a state whose active
conversation keys an existing entry yields a state with the same
property; and deleting the active conversation (when allowed) returns
and activates the first remaining conversation in insertion order. -/
theorem C5_active_conversation_keyed :
    (∀ (s : SessionState) (op : StoreOp), currentKeyed s → currentKeyed (applyOp s op)) ∧
    (∀ (s : SessionState) (k : String) (ms : List Msg) (rest : Dict (List Msg)),
      dictMem s.chat_sessions s.current_chat = true →
      ¬ s.chat_sessions.length ≤ 1 →
      dictDel s.chat_sessions s.current_chat = (k, ms) :: rest →
      (delete_chat s.current_chat s).1 = some k ∧
      (delete_chat s.current_chat s).2.current_chat = k) := by
  constructor
  · intro s op h
    cases op with
    | create now =>
      show dictMem (dictSet s.chat_sessions ("Chat " ++ now) []) ("Chat " ++ now) = true
      simp [dictMem, dictGet_set_self]
    | switch n =>
      show currentKeyed (switch_to_chat n s)
      cases hg : dictGet s.chat_sessions n with
      | none => rw [switch_to_chat_absent n s hg]; exact h
      | some msgs =>
        rw [switch_to_chat_present n s msgs hg]
        simp [currentKeyed, dictMem, hg]
    | delete n =>
      show currentKeyed (delete_chat n s).2
      by_cases hm : dictMem s.chat_sessions n
      · by_cases hl : s.chat_sessions.length ≤ 1
        · rw [delete_chat_last n s hm hl]; exact h
        · by_cases hc : n = s.current_chat
          · subst hc
            cases hd : dictDel s.chat_sessions s.current_chat with
            | nil =>
              have hlen := dictDel_length_ge s.chat_sessions s.current_chat
              rw [hd] at hlen
              simp at hlen
              omega
            | cons p rest =>
              obtain ⟨k, ms⟩ := p
              rw [delete_chat_active s k ms rest hm hl hd]
              simp [currentKeyed, dictMem, dictGet]
          · rw [delete_chat_inactive n s hm hl hc]
            show dictMem (dictDel s.chat_sessions n) s.current_chat = true
            rw [dictMem, dictGet_del_ne _ _ _ (fun hh => hc hh.symm)]
            exact h
      · rw [delete_chat_absent n s (by simpa using hm)]; exact h
    | rename a b =>
      show currentKeyed (rename_chat a b s).2
      by_cases ht : isBlank b = true
      · rw [rename_chat_blank a b s ht]; exact h
      · replace ht : isBlank b = false := by simpa using ht
        cases hg : dictGet s.chat_sessions a with
        | none => rw [rename_chat_absent a b s ht hg]; exact h
        | some msgs =>
          obtain ⟨-, hsess, hcur, -⟩ := rename_chat_core a b s msgs ht hg
          show dictMem (rename_chat a b s).2.chat_sessions
              (rename_chat a b s).2.current_chat = true
          rw [hsess, hcur]
          by_cases hc : a = s.current_chat
          · simp [hc, dictMem, dictGet_set_self]
          · simp only [if_neg hc]
            by_cases hb : b = s.current_chat
            · subst hb; simp [dictMem, dictGet_set_self]
            · rw [dictMem, dictGet_set_ne _ _ _ _ (fun hh => hb hh.symm),
                dictGet_del_ne _ _ _ (fun hh => hc hh.symm)]
              exact h
    | addMsg r c =>
      show dictMem (dictSet s.chat_sessions s.current_chat (s.messages ++ [⟨r, c⟩]))
          s.current_chat = true
      simp [dictMem, dictGet_set_self]
  · intro s k ms rest hm hl hd
    rw [delete_chat_active s k ms rest hm hl hd]
    exact ⟨rfl, rfl⟩

/-- Witness for C5: adding a message to the initial state keeps the
active name keyed, and deleting the active chat of a two-chat store
fails over to the first remaining chat. -/
theorem C5_active_conversation_keyed_witness :
    currentKeyed (applyOp initialState (StoreOp.addMsg "user" "x")) ∧
    ((delete_chat (create_new_chat "09:00" initialState).2.current_chat
        (create_new_chat "09:00" initialState).2).1 = some "New Chat" ∧
      (delete_chat (create_new_chat "09:00" initialState).2.current_chat
        (create_new_chat "09:00" initialState).2).2.current_chat = "New Chat") :=
  ⟨C5_active_conversation_keyed.1 initialState (StoreOp.addMsg "user" "x") (by decide),
   C5_active_conversation_keyed.2 (create_new_chat "09:00" initialState).2
     "New Chat" [] [] (by decide) (by decide) (by decide)⟩

/-- Reachable state with two conversations used to exhibit the rename
collision: create "Chat 10:00" next to "New Chat" and give it one
message. -/
def collisionState : SessionState :=
  [StoreOp.create "10:00", StoreOp.addMsg "user" "hello"].foldl applyOp initialState

/-- Counterexample to C10 as stated: `collisionState` satisfies the
mirror invariant, but renaming the inactive "New Chat" to the active
conversation's name "Chat 10:00" silently overwrites the active entry,
leaving the UI mirror different from the store. -/
theorem C10_counterexample :
    mirrored collisionState ∧
    ¬ mirrored (applyOp collisionState (StoreOp.rename "New Chat" "Chat 10:00")) := by
  constructor
  · show dictGet collisionState.chat_sessions collisionState.current_chat
        = some collisionState.messages
    decide
  · show ¬ dictGet (applyOp collisionState (StoreOp.rename "New Chat" "Chat 10:00")).chat_sessions
        (applyOp collisionState (StoreOp.rename "New Chat" "Chat 10:00")).current_chat
        = some (applyOp collisionState (StoreOp.rename "New Chat" "Chat 10:00")).messages
    decide

/-- C10 (amended): the UI mirror equals the store entry of the active
conversation after every store operation applied to a mirrored state,
except for a `rename_chat` whose new name equals the active
conversation's name while a different conversation is being renamed
(which overwrites the active entry and breaks the mirror). -/
theorem C10_mirror_preserved (s : SessionState) (op : StoreOp)
    (hm : mirrored s) (hsafe : renameSafe s op) : mirrored (applyOp s op) := by
  cases op with
  | create now =>
    show dictGet (dictSet s.chat_sessions ("Chat " ++ now) []) ("Chat " ++ now) = some []
    exact dictGet_set_self _ _ _
  | switch n =>
    show mirrored (switch_to_chat n s)
    cases hg : dictGet s.chat_sessions n with
    | none => rw [switch_to_chat_absent n s hg]; exact hm
    | some msgs =>
      rw [switch_to_chat_present n s msgs hg]
      exact hg
  | delete n =>
    show mirrored (delete_chat n s).2
    by_cases hmem : dictMem s.chat_sessions n
    · by_cases hl : s.chat_sessions.length ≤ 1
      · rw [delete_chat_last n s hmem hl]; exact hm
      · by_cases hc : n = s.current_chat
        · subst hc
          cases hd : dictDel s.chat_sessions s.current_chat with
          | nil =>
            have hlen := dictDel_length_ge s.chat_sessions s.current_chat
            rw [hd] at hlen
            simp at hlen
            omega
          | cons p rest =>
            obtain ⟨k, ms⟩ := p
            rw [delete_chat_active s k ms rest hmem hl hd]
            simp [mirrored, dictGet]
        · rw [delete_chat_inactive n s hmem hl hc]
          show dictGet (dictDel s.chat_sessions n) s.current_chat = some s.messages
          rw [dictGet_del_ne _ _ _ (fun hh => hc hh.symm)]
          exact hm
    · rw [delete_chat_absent n s (by simpa using hmem)]; exact hm
  | rename a b =>
    show mirrored (rename_chat a b s).2
    by_cases ht : isBlank b = true
    · rw [rename_chat_blank a b s ht]; exact hm
    · replace ht : isBlank b = false := by simpa using ht
      cases hg : dictGet s.chat_sessions a with
      | none => rw [rename_chat_absent a b s ht hg]; exact hm
      | some msgs =>
        obtain ⟨-, hsess, hcur, hmsgs⟩ := rename_chat_core a b s msgs ht hg
        show dictGet (rename_chat a b s).2.chat_sessions
            (rename_chat a b s).2.current_chat = some (rename_chat a b s).2.messages
        rw [hsess, hcur, hmsgs]
        by_cases hc : a = s.current_chat
        · simp only [if_pos hc]
          exact dictGet_set_self _ _ _
        · simp only [if_neg hc]
          have hb : b ≠ s.current_chat := fun hb => hc (hsafe hb)
          rw [dictGet_set_ne _ _ _ _ (fun hh => hb hh.symm),
            dictGet_del_ne _ _ _ (fun hh => hc hh.symm)]
          exact hm
  | addMsg r c =>
    show dictGet (dictSet s.chat_sessions s.current_chat (s.messages ++ [⟨r, c⟩]))
        s.current_chat = some (s.messages ++ [⟨r, c⟩])
    exact dictGet_set_self _ _ _

/-- Witness for the amended C10: adding a message to the initial state
and then renaming the active conversation preserves the mirror. -/
theorem C10_mirror_preserved_witness :
    mirrored (applyOp (applyOp initialState (StoreOp.addMsg "user" "hello"))
      (StoreOp.rename "New Chat" "Renamed")) :=
  C10_mirror_preserved (applyOp initialState (StoreOp.addMsg "user" "hello"))
    (StoreOp.rename "New Chat" "Renamed") (by decide) (by decide)

/-- Counterexample to C9 as stated: in `collisionState` (reachable by a
create followed by a message in the same clock minute) a second create
returns a name that is already a key of the store and resets that
conversation's stored history to empty, losing the message. -/
theorem C9_counterexample :
    dictMem collisionState.chat_sessions "Chat 10:00" = true ∧
    (create_new_chat "10:00" collisionState).1 = "Chat 10:00" ∧
    dictGet collisionState.chat_sessions "Chat 10:00" = some [⟨"user", "hello"⟩] ∧
    dictGet (create_new_chat "10:00" collisionState).2.chat_sessions "Chat 10:00"
      = some [] := by
  refine ⟨by decide, by decide, by decide, by decide⟩

/-- C9 (amended): whenever the clock-derived name "Chat HH:MM" is not
already a key of the store, `create_new_chat` adds a fresh empty
conversation under it without touching any existing entry, makes it
active, resets the mirror to empty and returns the name; when the name
already exists (two creations within the same clock minute) the existing
conversation's history is replaced by the empty list instead. -/
theorem C9_create_fresh (s : SessionState) (now : String)
    (hfresh : dictMem s.chat_sessions ("Chat " ++ now) = false) :
    (create_new_chat now s).1 = "Chat " ++ now ∧
    (create_new_chat now s).2.chat_sessions = s.chat_sessions ++ [("Chat " ++ now, [])] ∧
    (create_new_chat now s).2.current_chat = "Chat " ++ now ∧
    (create_new_chat now s).2.messages = [] ∧
    ∀ k, k ≠ "Chat " ++ now →
      dictGet (create_new_chat now s).2.chat_sessions k = dictGet s.chat_sessions k := by
  refine ⟨rfl, ?_, rfl, rfl, ?_⟩
  · show dictSet s.chat_sessions ("Chat " ++ now) [] = s.chat_sessions ++ [("Chat " ++ now, [])]
    exact dictSet_of_not_mem _ _ _ hfresh
  · intro k hk
    show dictGet (dictSet s.chat_sessions ("Chat " ++ now) []) k = dictGet s.chat_sessions k
    exact dictGet_set_ne _ _ _ _ hk

/-- Witness for the amended C9 at the initial store, where the new name
is fresh. -/
theorem C9_create_fresh_witness :
    (create_new_chat "10:00" initialState).1 = "Chat " ++ "10:00" ∧
    (create_new_chat "10:00" initialState).2.chat_sessions
      = initialState.chat_sessions ++ [("Chat " ++ "10:00", [])] ∧
    (create_new_chat "10:00" initialState).2.current_chat = "Chat " ++ "10:00" ∧
    (create_new_chat "10:00" initialState).2.messages = [] ∧
    ∀ k, k ≠ "Chat " ++ "10:00" →
      dictGet (create_new_chat "10:00" initialState).2.chat_sessions k
        = dictGet initialState.chat_sessions k :=
  C9_create_fresh initialState "10:00" (by decide)

/-! ### Turn controller theorems -/

/-- C2: from a session that is awaiting a response (pending flag set,
input stored, thinking set, mirror consistent with the store), one call
to `_process_pending_message` appends exactly one assistant message to
the mirror and to the active conversation's stored history — whatever
the governor call does, return or raise — and clears both `thinking`
and `needs_response`, returning the session to the idle state. -/
theorem C2_resolve_appends_exactly_one (dm : String)
    (gov : String → Nat → List Msg → GovResult) (s : ChatState) (u : String)
    (h1 : s.needs_response = true) (h2 : s.last_user_input = some u)
    (h3 : s.thinking = true)
    (h4 : dictGet s.chat_sessions s.current_chat = some s.messages) :
    ∃ r,
      (process_pending_message dm gov s).messages = s.messages ++ [⟨"assistant", r⟩] ∧
      dictGet (process_pending_message dm gov s).chat_sessions
          (process_pending_message dm gov s).current_chat
        = some (s.messages ++ [⟨"assistant", r⟩]) ∧
      (process_pending_message dm gov s).current_chat = s.current_chat ∧
      (process_pending_message dm gov s).thinking = false ∧
      (process_pending_message dm gov s).needs_response = false ∧
      (process_pending_message dm gov s).last_user_input = none := by
  refine ⟨govReply (gov (s.selected_model.getD dm) (s.max_tokens.getD 500)
    (excludeThinking s.messages)), ?_⟩
  unfold process_pending_message
  rw [h1, h2]
  simp only [Bool.not_true, Bool.false_eq_true, if_false]
  refine ⟨rfl, ?_, rfl, rfl, rfl, rfl⟩
  exact dictGet_set_self _ _ _

/-- Concrete awaiting-response session used as the C2 witness. -/
def awaitingSession : ChatState :=
  { messages := [⟨"user", "Hello"⟩]
    chat_sessions := [("New Chat", [⟨"user", "Hello"⟩])]
    current_chat := "New Chat"
    thinking := true
    needs_response := true
    last_user_input := some "Hello"
    selected_model := none
    max_tokens := none
    uploaded_images := none
    image_previews := none }

/-- Witness for C2 with a governor that returns "Hi there!". -/
theorem C2_resolve_appends_exactly_one_witness :
    ∃ r,
      (process_pending_message "mistral-small-latest"
        (fun _ _ _ => GovResult.returns "Hi there!") awaitingSession).messages
        = awaitingSession.messages ++ [⟨"assistant", r⟩] ∧
      dictGet (process_pending_message "mistral-small-latest"
          (fun _ _ _ => GovResult.returns "Hi there!") awaitingSession).chat_sessions
          (process_pending_message "mistral-small-latest"
            (fun _ _ _ => GovResult.returns "Hi there!") awaitingSession).current_chat
        = some (awaitingSession.messages ++ [⟨"assistant", r⟩]) ∧
      (process_pending_message "mistral-small-latest"
        (fun _ _ _ => GovResult.returns "Hi there!") awaitingSession).current_chat
        = awaitingSession.current_chat ∧
      (process_pending_message "mistral-small-latest"
        (fun _ _ _ => GovResult.returns "Hi there!") awaitingSession).thinking = false ∧
      (process_pending_message "mistral-small-latest"
        (fun _ _ _ => GovResult.returns "Hi there!") awaitingSession).needs_response = false ∧
      (process_pending_message "mistral-small-latest"
        (fun _ _ _ => GovResult.returns "Hi there!") awaitingSession).last_user_input = none :=
  C2_resolve_appends_exactly_one "mistral-small-latest"
    (fun _ _ _ => GovResult.returns "Hi there!") awaitingSession "Hello"
    rfl rfl rfl (by decide)

/-! ### Call governor theorems -/

/-- Shape of every string the retry loop can return, for any starting
counter and fuel. -/
theorem chatLoop_result_form (env : Nat → ChatAttempt) (mr t : Nat) :
    ∀ (fuel r : Nat),
      (∃ i s, env i = ChatAttempt.ok s ∧ (chatLoop env mr t r fuel).result = s) ∨
      (chatLoop env mr t r fuel).result = clockTimeoutMsg t ∨
      (∃ m, (chatLoop env mr t r fuel).result = connErrMsg m) ∨
      (chatLoop env mr t r fuel).result = timeoutErrMsg ∨
      (∃ m, (chatLoop env mr t r fuel).result = "Error: " ++ m) ∨
      (chatLoop env mr t r fuel).result = exhaustedMsg := by
  intro fuel
  induction fuel with
  | zero => intro r; right; right; right; right; right; rfl
  | succ fuel ih =>
    intro r
    cases henv : env r with
    | clockTimeout => right; left; simp [chatLoop, henv]
    | ok s => left; exact ⟨r, s, henv, by simp [chatLoop, henv]⟩
    | connError m =>
      by_cases hr : r + 1 ≤ mr
      · have := ih (r + 1)
        simpa [chatLoop, henv, hr] using this
      · right; right; left; exact ⟨m, by simp [chatLoop, henv, hr]⟩
    | timeoutError m =>
      by_cases hr : r + 1 ≤ mr
      · have := ih (r + 1)
        simpa [chatLoop, henv, hr] using this
      · right; right; right; left; simp [chatLoop, henv, hr]
    | otherError m =>
      right; right; right; right; left
      exact ⟨m, by simp [chatLoop, henv]⟩

/-- C1: for every client behaviour — success, connection error, timeout
error, wall-clock timeout, or any other exception from the upstream call
or from image encoding — `chat_with_mistral` returns a string, and that
string is either the upstream success text or one of the function's
human-readable error texts; no behaviour escapes to an exceptional
outcome. -/
theorem C1_always_returns_string (env : Nat → ChatAttempt) (mr t : Nat) :
    (∃ i s, env i = ChatAttempt.ok s ∧ (chat_with_mistral env mr t).result = s) ∨
    (chat_with_mistral env mr t).result = clockTimeoutMsg t ∨
    (∃ m, (chat_with_mistral env mr t).result = connErrMsg m) ∨
    (chat_with_mistral env mr t).result = timeoutErrMsg ∨
    (∃ m, (chat_with_mistral env mr t).result = "Error: " ++ m) ∨
    (chat_with_mistral env mr t).result = exhaustedMsg :=
  chatLoop_result_form env mr t (mr + 1) 0

/-- One retried iteration on a connection error: increment the counter,
sleep `2^retries`, continue with the rest of the fuel. -/
theorem chatLoop_conn_step (env : Nat → ChatAttempt) (mr t r fuel : Nat) (m : String)
    (henv : env r = ChatAttempt.connError m) (hle : r + 1 ≤ mr) :
    chatLoop env mr t r (fuel + 1) =
      ⟨(chatLoop env mr t (r + 1) fuel).result,
        (chatLoop env mr t (r + 1) fuel).iterations + 1,
        2 ^ (r + 1) :: (chatLoop env mr t (r + 1) fuel).sleeps⟩ := by
  simp only [chatLoop, henv, hle, if_true]

/-- One retried iteration on a timeout error. -/
theorem chatLoop_timeout_step (env : Nat → ChatAttempt) (mr t r fuel : Nat) (m : String)
    (henv : env r = ChatAttempt.timeoutError m) (hle : r + 1 ≤ mr) :
    chatLoop env mr t r (fuel + 1) =
      ⟨(chatLoop env mr t (r + 1) fuel).result,
        (chatLoop env mr t (r + 1) fuel).iterations + 1,
        2 ^ (r + 1) :: (chatLoop env mr t (r + 1) fuel).sleeps⟩ := by
  simp only [chatLoop, henv, hle, if_true]

/-- Backoff schedule bookkeeping: one more sleep in front of a shifted
schedule. -/
theorem backoff_cons (r f : Nat) :
    (List.range (f + 1)).map (fun i => 2 ^ (r + 1 + i)) =
      2 ^ (r + 1) :: (List.range f).map (fun i => 2 ^ (r + 1 + 1 + i)) := by
  rw [List.range_succ_eq_map, List.map_cons, List.map_map]
  refine congrArg₂ _ (by simp) ?_
  apply List.map_congr_left
  intro i _
  simp only [Function.comp_apply]
  congr 1
  omega

/-- Trace of the retry loop when every attempt raises a connection
error: one iteration per remaining retry budget, sleeping `2^attempt`
seconds after each failure but the last, ending in the connection error
string. -/
theorem chatLoop_all_conn (env : Nat → ChatAttempt) (mr t : Nat) (m : String)
    (henv : ∀ i, env i = ChatAttempt.connError m) :
    ∀ (f r : Nat), r + f = mr →
      chatLoop env mr t r (f + 1) =
        ⟨connErrMsg m, f + 1, (List.range f).map (fun i => 2 ^ (r + 1 + i))⟩ := by
  intro f
  induction f with
  | zero =>
    intro r hr
    have hge : ¬ r + 1 ≤ mr := by omega
    simp [chatLoop, henv r, hge]
  | succ f ih =>
    intro r hr
    have hle : r + 1 ≤ mr := by omega
    have hrec := ih (r + 1) (by omega)
    rw [chatLoop_conn_step env mr t r (f + 1) m (henv r) hle, hrec, backoff_cons]

/-- Trace of the retry loop when every attempt raises a timeout error:
same retry schedule, ending in the fixed timeout error string. -/
theorem chatLoop_all_timeout (env : Nat → ChatAttempt) (mr t : Nat) (m : String)
    (henv : ∀ i, env i = ChatAttempt.timeoutError m) :
    ∀ (f r : Nat), r + f = mr →
      chatLoop env mr t r (f + 1) =
        ⟨timeoutErrMsg, f + 1, (List.range f).map (fun i => 2 ^ (r + 1 + i))⟩ := by
  intro f
  induction f with
  | zero =>
    intro r hr
    have hge : ¬ r + 1 ≤ mr := by omega
    simp [chatLoop, henv r, hge]
  | succ f ih =>
    intro r hr
    have hle : r + 1 ≤ mr := by omega
    have hrec := ih (r + 1) (by omega)
    rw [chatLoop_timeout_step env mr t r (f + 1) m (henv r) hle, hrec, backoff_cons]

/-- C6: transient (connection- or timeout-class) failures are retried up
to `max_retries` additional times with exponential backoff sleeps of
`2^attempt` seconds (attempts numbered 1..max_retries), exhaustion
yielding the class's descriptive error string, while any other error
class returns an error string immediately after the first iteration with
no retry and no sleep. -/
theorem C6_retry_policy (env : Nat → ChatAttempt) (mr t : Nat) (m : String) :
    (env 0 = ChatAttempt.otherError m →
      chat_with_mistral env mr t = ⟨"Error: " ++ m, 1, []⟩) ∧
    ((∀ i, env i = ChatAttempt.connError m) →
      chat_with_mistral env mr t =
        ⟨connErrMsg m, mr + 1, (List.range mr).map (fun i => 2 ^ (i + 1))⟩) ∧
    ((∀ i, env i = ChatAttempt.timeoutError m) →
      chat_with_mistral env mr t =
        ⟨timeoutErrMsg, mr + 1, (List.range mr).map (fun i => 2 ^ (i + 1))⟩) := by
  refine ⟨?_, ?_, ?_⟩
  · intro h0
    show chatLoop env mr t 0 (mr + 1) = _
    simp [chatLoop, h0]
  · intro henv
    show chatLoop env mr t 0 (mr + 1) = _
    rw [chatLoop_all_conn env mr t m henv mr 0 (by omega)]
    refine congrArg _ ?_
    apply List.map_congr_left
    intro i _
    congr 1
    omega
  · intro henv
    show chatLoop env mr t 0 (mr + 1) = _
    rw [chatLoop_all_timeout env mr t m henv mr 0 (by omega)]
    refine congrArg _ ?_
    apply List.map_congr_left
    intro i _
    congr 1
    omega

/-- Witness for C6 with `max_retries = 2`: an unexpected error returns
at once; persistent connection errors are retried twice with sleeps of
2 and 4 seconds; persistent timeouts likewise. -/
theorem C6_retry_policy_witness :
    chat_with_mistral (fun _ => ChatAttempt.otherError "boom") 2 60
      = ⟨"Error: " ++ "boom", 1, []⟩ ∧
    chat_with_mistral (fun _ => ChatAttempt.connError "down") 2 60
      = ⟨connErrMsg "down", 2 + 1, (List.range 2).map (fun i => 2 ^ (i + 1))⟩ ∧
    chat_with_mistral (fun _ => ChatAttempt.timeoutError "slow") 2 60
      = ⟨timeoutErrMsg, 2 + 1, (List.range 2).map (fun i => 2 ^ (i + 1))⟩ :=
  ⟨(C6_retry_policy (fun _ => ChatAttempt.otherError "boom") 2 60 "boom").1 rfl,
   (C6_retry_policy (fun _ => ChatAttempt.connError "down") 2 60 "down").2.1 (fun _ => rfl),
   (C6_retry_policy (fun _ => ChatAttempt.timeoutError "slow") 2 60 "slow").2.2 (fun _ => rfl)⟩

/-! ### Image-merge aliasing theorem -/

/-- C7 evidence: with the transcript `[{"role": "user", "content":
"hi"}]` and an attached image, the image-merge block leaves the caller's
list of message references untouched but rewrites the shared message
record itself, so the caller's stored transcript now carries the
multi-part content — the transcript is not unchanged, contradicting the
claim. -/
theorem C7_shallow_copy_mutates_transcript :
    (mergeImage [⟨"user", PyContent.text "hi"⟩] [0] "IMG").2 = [0] ∧
    ([(⟨"user", PyContent.text "hi"⟩ : PyMsg)].get? 0
      = some ⟨"user", PyContent.text "hi"⟩) ∧
    ((mergeImage [⟨"user", PyContent.text "hi"⟩] [0] "IMG").1.get? 0
      = some ⟨"user", PyContent.multipart "hi" ("data:image/png;base64," ++ "IMG")⟩) ∧
    (mergeImage [⟨"user", PyContent.text "hi"⟩] [0] "IMG").1
      ≠ [⟨"user", PyContent.text "hi"⟩] := by
  refine ⟨by decide, by decide, by decide, by decide⟩

/-! ### Title deriver theorems -/

theorem pySplitGo_ne_nil (l : List Char) :
    ∀ (inDelim : Bool) (prev : Option Char) (segRev : List Char),
      pySplitGo inDelim prev segRev l ≠ [] := by
  induction l with
  | nil => intro inDelim prev segRev; simp [pySplitGo]
  | cons c rest ih =>
    intro inDelim prev segRev
    cases inDelim with
    | true =>
      by_cases hsp : isPySpace c = true
      · simpa [pySplitGo, hsp] using ih true (some c) segRev
      · simpa [pySplitGo, hsp] using ih false (some c) [c]
    | false =>
      by_cases hcond : (isPySpace c && isPunctOpt prev) = true
      · simp [pySplitGo, hcond]
      · simpa [pySplitGo, hcond] using ih false (some c) (c :: segRev)

theorem pySplitSentences_ne_nil (l : List Char) : pySplitSentences l ≠ [] :=
  pySplitGo_ne_nil l false none []

theorem pySplitGo_head (l : List Char) :
    ∀ (prev : Option Char) (segRev : List Char),
      (pySplitGo false prev segRev l).head? = some (segRev.reverse ++ firstSegGo prev l) := by
  induction l with
  | nil => intro prev segRev; simp [pySplitGo, firstSegGo]
  | cons c rest ih =>
    intro prev segRev
    by_cases hcond : (isPySpace c && isPunctOpt prev) = true
    · simp [pySplitGo, firstSegGo, hcond]
    · rw [show pySplitGo false prev segRev (c :: rest)
          = pySplitGo false (some c) (c :: segRev) rest by simp [pySplitGo, hcond]]
      rw [ih (some c) (c :: segRev)]
      simp [firstSegGo, hcond]

theorem pySplitSentences_head (l : List Char) :
    (pySplitSentences l).head? = some (firstSegGo none l) := by
  simpa using pySplitGo_head l none []

theorem firstSegGo_stable (l : List Char) :
    ∀ prev, firstSegGo prev (firstSegGo prev l) = firstSegGo prev l := by
  induction l with
  | nil => intro prev; simp [firstSegGo]
  | cons c rest ih =>
    intro prev
    by_cases hcond : (isPySpace c && isPunctOpt prev) = true
    · simp [firstSegGo, hcond]
    · rw [show firstSegGo prev (c :: rest) = c :: firstSegGo (some c) rest by
        simp [firstSegGo, hcond]]
      rw [show firstSegGo prev (c :: firstSegGo (some c) rest)
          = c :: firstSegGo (some c) (firstSegGo (some c) rest) by simp [firstSegGo, hcond]]
      rw [ih (some c)]

theorem firstSegGo_length_le (l : List Char) :
    ∀ prev, (firstSegGo prev l).length ≤ l.length := by
  induction l with
  | nil => intro prev; simp [firstSegGo]
  | cons c rest ih =>
    intro prev
    by_cases hcond : (isPySpace c && isPunctOpt prev) = true
    · simp [firstSegGo, hcond]
    · rw [show firstSegGo prev (c :: rest) = c :: firstSegGo (some c) rest by
        simp [firstSegGo, hcond]]
      simpa using ih (some c)

theorem firstSegGo_take (l : List Char) :
    ∀ (prev : Option Char) (k : Nat), k ≤ (firstSegGo prev l).length →
      firstSegGo prev (l.take k) = l.take k := by
  induction l with
  | nil => intro prev k _; simp [firstSegGo]
  | cons c rest ih =>
    intro prev k hk
    cases k with
    | zero => simp [firstSegGo]
    | succ k =>
      by_cases hcond : (isPySpace c && isPunctOpt prev) = true
      · exfalso
        rw [show firstSegGo prev (c :: rest) = [] by simp [firstSegGo, hcond]] at hk
        simp at hk
      · rw [show firstSegGo prev (c :: rest) = c :: firstSegGo (some c) rest by
          simp [firstSegGo, hcond]] at hk
        simp only [List.take_succ_cons]
        rw [show firstSegGo prev (c :: rest.take k) = c :: firstSegGo (some c) (rest.take k) by
          simp [firstSegGo, hcond]]
        rw [ih (some c) k (by simpa using hk)]

theorem firstSegGo_append (a : List Char) :
    ∀ (prev : Option Char) (b : List Char), firstSegGo prev a = a →
      firstSegGo prev (a ++ b) = a ++ firstSegGo (prevAfter prev a) b := by
  induction a with
  | nil => intro prev b _; simp [prevAfter]
  | cons c a' ih =>
    intro prev b h
    by_cases hcond : (isPySpace c && isPunctOpt prev) = true
    · exfalso
      rw [show firstSegGo prev (c :: a') = [] by simp [firstSegGo, hcond]] at h
      exact List.cons_ne_nil c a' h.symm
    · have h' : firstSegGo (some c) a' = a' := by
        rw [show firstSegGo prev (c :: a') = c :: firstSegGo (some c) a' by
          simp [firstSegGo, hcond]] at h
        exact (List.cons.inj h).2
      rw [List.cons_append]
      rw [show firstSegGo prev (c :: (a' ++ b)) = c :: firstSegGo (some c) (a' ++ b) by
        simp [firstSegGo, hcond]]
      rw [ih (some c) b h']
      rfl

theorem firstSegGo_dots (p : Option Char) :
    firstSegGo p ['.', '.', '.'] = ['.', '.', '.'] := by
  have hsp : isPySpace '.' = false := by decide
  simp [firstSegGo, hsp]

/-- Case characterization of the title deriver in terms of the first
segment of the sentence split. -/
theorem deriveTitle_eq_cases (t : List Char) :
    deriveTitle t =
      if t.length ≤ 40 then t
      else if (firstSegGo none (t.take 60)).length ≤ 50 then firstSegGo none (t.take 60)
      else t.take 40 ++ ['.', '.', '.'] := by
  unfold deriveTitle
  by_cases h40 : t.length ≤ 40
  · simp [h40]
  · simp only [h40, if_false]
    cases hsp : pySplitSentences (t.take (40 + 20)) with
    | nil => exact absurd hsp (pySplitSentences_ne_nil _)
    | cons x xs =>
      have hhead := pySplitSentences_head (t.take (40 + 20))
      rw [hsp] at hhead
      simp only [List.head?_cons, Option.some.injEq] at hhead
      subst hhead
      norm_num

/-- C3: the title deriver follows exactly the spec's three steps — texts
of length at most 40 are returned unchanged; otherwise `text[:60]` is
split on sentence-ending punctuation followed by whitespace and the
first segment is returned when its length is at most 50; otherwise
`text[:40] + "..."` is returned. -/
theorem C3_title_derivation_steps (t : List Char) : deriveTitle t = deriveTitleSpec t := by
  rw [deriveTitle_eq_cases]
  unfold deriveTitleSpec
  by_cases h40 : t.length ≤ 40
  · simp [h40]
  · simp only [h40, if_false]
    rw [show (pySplitSentences (t.take 60)).headD [] = firstSegGo none (t.take 60) by
      rw [List.headD_eq_head?, pySplitSentences_head]
      rfl]

/-- C8: the title deriver's output never exceeds 50 characters and
re-applying it to its own output returns the output unchanged. -/
theorem C8_title_idempotent_and_bounded (t : List Char) :
    (deriveTitle t).length ≤ 50 ∧ deriveTitle (deriveTitle t) = deriveTitle t := by
  by_cases h40 : t.length ≤ 40
  · have h1 : deriveTitle t = t := by rw [deriveTitle_eq_cases]; simp [h40]
    rw [h1]
    refine ⟨by omega, ?_⟩
    rw [deriveTitle_eq_cases]
    simp [h40]
  · by_cases h50 : (firstSegGo none (t.take 60)).length ≤ 50
    · have h1 : deriveTitle t = firstSegGo none (t.take 60) := by
        rw [deriveTitle_eq_cases]; simp [h40, h50]
      rw [h1]
      refine ⟨h50, ?_⟩
      by_cases h40b : (firstSegGo none (t.take 60)).length ≤ 40
      · rw [deriveTitle_eq_cases]; simp [h40b]
      · have htake : (firstSegGo none (t.take 60)).take 60 = firstSegGo none (t.take 60) :=
          List.take_of_length_le (by omega)
        rw [deriveTitle_eq_cases]
        simp only [h40b, if_false]
        rw [htake, firstSegGo_stable]
        simp [h50]
    · have h1 : deriveTitle t = t.take 40 ++ ['.', '.', '.'] := by
        rw [deriveTitle_eq_cases]; simp [h40, h50]
      have hlen40 : (t.take 40).length = 40 := by
        simp only [List.length_take]
        omega
      have hlen : (t.take 40 ++ ['.', '.', '.']).length = 43 := by
        simp [hlen40]
      rw [h1]
      refine ⟨by omega, ?_⟩
      have h40b : ¬ (t.take 40 ++ ['.', '.', '.']).length ≤ 40 := by omega
      have htake : (t.take 40 ++ ['.', '.', '.']).take 60 = t.take 40 ++ ['.', '.', '.'] :=
        List.take_of_length_le (by omega)
      have h401 : firstSegGo none ((t.take 60).take 40) = (t.take 60).take 40 :=
        firstSegGo_take (t.take 60) none 40 (by omega)
      have htt : (t.take 60).take 40 = t.take 40 := by
        rw [List.take_take]
        norm_num
      rw [htt] at h401
      have happ : firstSegGo none (t.take 40 ++ ['.', '.', '.'])
          = t.take 40 ++ firstSegGo (prevAfter none (t.take 40)) ['.', '.', '.'] :=
        firstSegGo_append (t.take 40) none ['.', '.', '.'] h401
      rw [firstSegGo_dots] at happ
      rw [deriveTitle_eq_cases]
      simp only [h40b, if_false]
      rw [htake, happ]
      have hle : (t.take 40 ++ ['.', '.', '.']).length ≤ 50 := by omega
      simp [hle]

end StreamlitMistral
